import Mathlib

/-!
Verification of the amia-codec proto3 wire-format engine (crate `amia-proto3`).

The Rust sources are shallowly embedded:
* bytes are `Nat` values (always `< 256` when produced by the encoders);
* a `Read + Seek` source (`std::io::Cursor`) is a `Cursor`: an immutable byte
  list together with a read position;
* machine integers are `Nat` / `Int` with explicit `% 2 ^ 64` (resp. `% 2 ^ 32`)
  where Rust wrapping semantics matter;
* fallible code returns a `DOutcome`: `ok`, a `DecodeError` (the crate's error
  enum), or `panicked` for a Rust panic / failed `unwrap`.
Every decode function returns the final reader state next to its outcome,
mirroring the `&mut R` argument of the Rust code.
-/

/-- `WireType` from `lib.rs` (the two deprecated group markers included). -/
inductive WireType where
  | varint
  | fixed64
  | lengthDelimited
  | startGroup
  | endGroup
  | fixed32
deriving DecidableEq, Repr

/-- The numeric value of a `WireType` (`wire_type as u32`). -/
def WireType.code : WireType → Nat
  | .varint => 0
  | .fixed64 => 1
  | .lengthDelimited => 2
  | .startGroup => 3
  | .endGroup => 4
  | .fixed32 => 5

/-- `DecodeError` from `lib.rs`.  The `io::Error` and `FromUtf8Error` payloads
carry no information used by the codec, so they are dropped here. -/
inductive DecodeError where
  | ioError
  | unexpectedEof
  | invalidWireType (code : Nat)
  | invalidTag
  | invalidVarint
  | invalidUtf8
  | unexpectedWireType (expected got : WireType)
  | malformedInput (msg : String)
deriving DecidableEq, Repr

/-- Outcome of running a fallible Rust function: `Ok`, `Err(DecodeError)`, or a
panic (`unwrap` failure / `panic!`). -/
inductive DOutcome (α : Type) where
  | ok (a : α)
  | err (e : DecodeError)
  | panicked
deriving DecidableEq, Repr

/-- `Tag` from `decoder.rs`. -/
structure Tag where
  fieldNumber : Nat
  wireType : WireType
deriving DecidableEq, Repr

/-- A `std::io::Cursor` over a byte buffer: the data plus the read position. -/
structure Cursor where
  data : List Nat
  pos : Nat
deriving DecidableEq, Repr

/-- `read_exact` into an `n`-byte buffer: succeeds exactly when `n` bytes
remain, advancing the position; otherwise `UnexpectedEof`. -/
def Cursor.readBytes (c : Cursor) (n : Nat) : Option (List Nat × Cursor) :=
  if c.pos + n ≤ c.data.length then
    some ((c.data.drop c.pos).take n, ⟨c.data, c.pos + n⟩)
  else
    none

/-- `encode_varint` from `encoder.rs`: base-128, little-endian group order,
continuation bit in the MSB.  Each emitted byte is `(value as u8) | 0x80`
while `value >= 0x80`, then the final byte `value as u8`. -/
def encodeVarint (v : Nat) : List Nat :=
  if v ≥ 128 then
    (v % 256 ||| 128) :: encodeVarint (v / 128)
  else
    [v]
termination_by v
decreasing_by exact Nat.div_lt_self (by omega) (by omega)

/-- The loop of `decode_varint` from `decoder.rs`, carrying the accumulator
and the current shift.  `result |= ((byte & 0x7F) as u64) << shift` is a
wrapping u64 shift, hence the `% 2 ^ 64`.  The loop can only repeat while
`shift + 7 ≤ 63`, which bounds the recursion. -/
def decodeVarintLoop (result shift : Nat) (c : Cursor) : DOutcome Nat × Cursor :=
  match c.data.get? c.pos with
  | none => (.err .unexpectedEof, c)
  | some b =>
    let c' : Cursor := ⟨c.data, c.pos + 1⟩
    let result' := result ||| ((b &&& 127) <<< shift) % 2 ^ 64
    if b &&& 128 = 0 then
      (.ok result', c')
    else if shift + 7 > 63 then
      (.err .invalidVarint, c')
    else
      decodeVarintLoop result' (shift + 7) c'
termination_by 63 - shift
decreasing_by omega

/-- `decode_varint` from `decoder.rs`. -/
def decodeVarint (c : Cursor) : DOutcome Nat × Cursor :=
  decodeVarintLoop 0 0 c

/-- `make_tag` from `encoder.rs`: `(field_number << 3) | wire_type` in `u32`
arithmetic (the shift wraps modulo `2 ^ 32`). -/
def makeTag (fieldNumber : Nat) (wireType : WireType) : Nat :=
  (fieldNumber <<< 3) % 2 ^ 32 ||| wireType.code

/-- `encode_tag` from `encoder.rs`. -/
def encodeTag (fieldNumber : Nat) (wireType : WireType) : List Nat :=
  encodeVarint (makeTag fieldNumber wireType)

/-- Bit pattern of an `i64` value (two's complement). -/
def toU64 (v : Int) : Nat := (v % (2 ^ 64 : Int)).toNat

/-- Reinterpret a `u64` bit pattern as an `i64` value. -/
def fromU64 (p : Nat) : Int := if p < 2 ^ 63 then (p : Int) else (p : Int) - 2 ^ 64

/-- Reinterpret a `u32` bit pattern as an `i32` value. -/
def fromU32 (p : Nat) : Int := if p < 2 ^ 31 then (p : Int) else (p : Int) - 2 ^ 32

/-- The zigzag mapping `((value << 1) ^ (value >> 63)) as u64` from
`encode_zigzag` in `encoder.rs`.  `value << 1` wraps modulo `2 ^ 64`;
`value >> 63` is an arithmetic shift, i.e. all-ones for a negative `i64`
and zero otherwise. -/
def zigzag (v : Int) : Nat :=
  (2 * toU64 v) % 2 ^ 64 ^^^ (if v < 0 then 2 ^ 64 - 1 else 0)

/-- `encode_zigzag` from `encoder.rs`: the varint of the zigzag mapping. -/
def encodeZigzag (v : Int) : List Nat :=
  encodeVarint (zigzag v)

/-- `decode_zigzag` from `decoder.rs`:
`((value >> 1) as i64) ^ (-((value & 1) as i64))`, computed on bit
patterns. -/
def decodeZigzag (u : Nat) : Int :=
  fromU64 ((u >>> 1) ^^^ toU64 (-(((u &&& 1 : Nat)) : Int)))

/-- `encode_uint32` from `encoder.rs`: nothing for zero, otherwise tag plus
varint of the value. -/
def encode_uint32 (fieldNumber : Nat) (value : Nat) : List Nat :=
  if value = 0 then []
  else encodeTag fieldNumber .varint ++ encodeVarint value

/-- `encode_bool` from `encoder.rs`: nothing for `false`, otherwise tag plus
the byte `value as u8`. -/
def encode_bool (fieldNumber : Nat) (value : Bool) : List Nat :=
  if !value then []
  else encodeTag fieldNumber .varint ++ [if value then 1 else 0]

/-- `encode_string` from `encoder.rs` (the `&str` argument is modelled by its
UTF-8 bytes): nothing when empty, otherwise tag, length varint, raw bytes. -/
def encode_string (fieldNumber : Nat) (value : List Nat) : List Nat :=
  if value.isEmpty then []
  else encodeTag fieldNumber .lengthDelimited ++ encodeVarint value.length ++ value

/-- Sequencing of fallible reader operations: the Lean counterpart of Rust's
`?` operator (errors and panics propagate, the reader state is threaded). -/
def bindC {α β : Type} (r : DOutcome α × Cursor)
    (f : α → Cursor → DOutcome β × Cursor) : DOutcome β × Cursor :=
  match r with
  | (.ok a, c) => f a c
  | (.err e, c) => (.err e, c)
  | (.panicked, c) => (.panicked, c)

/-- `Tag::decode` from `decoder.rs`.  A varint of `0` means "no more fields";
`UnexpectedEof` from the inner varint read is also turned into `Ok(None)`.
The `field_number.try_into::<u32>().unwrap()` panics when the decoded field
number does not fit in a `u32`. -/
def Tag.decode (c : Cursor) : DOutcome (Option Tag) × Cursor :=
  match decodeVarint c with
  | (.ok tag, c') =>
    if tag = 0 then (.ok none, c')
    else
      let fieldNumber := tag >>> 3
      if fieldNumber = 0 then (.err .invalidTag, c')
      else
        let wireTypeValue := tag &&& 7
        let wt : Option WireType :=
          match wireTypeValue with
          | 0 => some .varint
          | 1 => some .fixed64
          | 2 => some .lengthDelimited
          | 5 => some .fixed32
          | _ => none
        match wt with
        | none => (.err (.invalidWireType wireTypeValue), c')
        | some wireType =>
          if fieldNumber < 2 ^ 32 then (.ok (some ⟨fieldNumber, wireType⟩), c')
          else (.panicked, c')
  | (.err .unexpectedEof, c') => (.ok none, c')
  | (.err e, c') => (.err e, c')
  | (.panicked, c') => (.panicked, c')

/-- `decode_tag` from `decoder.rs`. -/
def decode_tag (c : Cursor) : DOutcome (Option Tag) × Cursor :=
  Tag.decode c

/-- Truncating an `i64` value to an `i32` (`as i32`). -/
def i64toI32 (z : Int) : Int := fromU32 (toU64 z % 2 ^ 32)

/-- `decode_uint32` from `decoder.rs` (`value as u32`). -/
def decode_uint32 (c : Cursor) : DOutcome Nat × Cursor :=
  bindC (decodeVarint c) fun v c' => (.ok (v % 2 ^ 32), c')

/-- `decode_int32` from `decoder.rs` (`value as i32`). -/
def decode_int32 (c : Cursor) : DOutcome Int × Cursor :=
  bindC (decodeVarint c) fun v c' => (.ok (fromU32 (v % 2 ^ 32)), c')

/-- `decode_int64` from `decoder.rs` (`value as i64`). -/
def decode_int64 (c : Cursor) : DOutcome Int × Cursor :=
  bindC (decodeVarint c) fun v c' => (.ok (fromU64 v), c')

/-- `decode_uint64` from `decoder.rs`. -/
def decode_uint64 (c : Cursor) : DOutcome Nat × Cursor :=
  decodeVarint c

/-- `decode_sint32` from `decoder.rs` (`decode_zigzag(value) as i32`). -/
def decode_sint32 (c : Cursor) : DOutcome Int × Cursor :=
  bindC (decodeVarint c) fun v c' => (.ok (i64toI32 (decodeZigzag v)), c')

/-- `decode_sint64` from `decoder.rs`. -/
def decode_sint64 (c : Cursor) : DOutcome Int × Cursor :=
  bindC (decodeVarint c) fun v c' => (.ok (decodeZigzag v), c')

/-- `decode_bool` from `decoder.rs` (`value != 0`). -/
def decode_bool (c : Cursor) : DOutcome Bool × Cursor :=
  bindC (decodeVarint c) fun v c' => (.ok (v != 0), c')

/-- `decode_bytes` from `decoder.rs`: length varint, then `read_exact` into a
buffer of that size.  A failed `read_exact` surfaces through `From<io::Error>`
as `DecodeError::IoError` (reader state on that path is not needed by any
property proved below, the pre-read state is returned). -/
def decode_bytes (c : Cursor) : DOutcome (List Nat) × Cursor :=
  bindC (decodeVarint c) fun len c' =>
    match c'.readBytes len with
    | some (buf, c'') => (.ok buf, c'')
    | none => (.err .ioError, c')

/-- UTF-8 validity of a byte sequence, as checked by `String::from_utf8`
(continuation-byte ranges, no overlongs, no surrogates, max `U+10FFFF`). -/
def validUtf8 : List Nat → Bool
  | [] => true
  | b :: rest =>
    if b < 128 then validUtf8 rest
    else if b < 194 then false
    else if b < 224 then
      match rest with
      | b1 :: r => decide (128 ≤ b1 ∧ b1 < 192) && validUtf8 r
      | [] => false
    else if b < 240 then
      match rest with
      | b1 :: b2 :: r =>
        (if b = 224 then decide (160 ≤ b1 ∧ b1 < 192)
         else if b = 237 then decide (128 ≤ b1 ∧ b1 < 160)
         else decide (128 ≤ b1 ∧ b1 < 192)) &&
        (decide (128 ≤ b2 ∧ b2 < 192) && validUtf8 r)
      | _ => false
    else if b < 245 then
      match rest with
      | b1 :: b2 :: b3 :: r =>
        (if b = 240 then decide (144 ≤ b1 ∧ b1 < 192)
         else if b = 244 then decide (128 ≤ b1 ∧ b1 < 144)
         else decide (128 ≤ b1 ∧ b1 < 192)) &&
        (decide (128 ≤ b2 ∧ b2 < 192) &&
          (decide (128 ≤ b3 ∧ b3 < 192) && validUtf8 r))
      | _ => false
    else false

/-- `decode_string` from `decoder.rs`: `decode_bytes` followed by
`String::from_utf8` (strings are modelled by their UTF-8 bytes). -/
def decode_string (c : Cursor) : DOutcome (List Nat) × Cursor :=
  bindC (decode_bytes c) fun bytes c' =>
    if validUtf8 bytes then (.ok bytes, c') else (.err .invalidUtf8, c')

/-- Little-endian interpretation of a byte list (`from_le_bytes`). -/
def leNat : List Nat → Nat
  | [] => 0
  | b :: t => b + 256 * leNat t

/-- `decode_fixed32` from `decoder.rs`: four raw little-endian bytes. -/
def decode_fixed32 (c : Cursor) : DOutcome Nat × Cursor :=
  match c.readBytes 4 with
  | some (buf, c') => (.ok (leNat buf), c')
  | none => (.err .ioError, c)

/-- `decode_fixed64` from `decoder.rs`: eight raw little-endian bytes. -/
def decode_fixed64 (c : Cursor) : DOutcome Nat × Cursor :=
  match c.readBytes 8 with
  | some (buf, c') => (.ok (leNat buf), c')
  | none => (.err .ioError, c)

/-- `decode_sfixed32` from `decoder.rs`. -/
def decode_sfixed32 (c : Cursor) : DOutcome Int × Cursor :=
  match c.readBytes 4 with
  | some (buf, c') => (.ok (fromU32 (leNat buf)), c')
  | none => (.err .ioError, c)

/-- `decode_sfixed64` from `decoder.rs`. -/
def decode_sfixed64 (c : Cursor) : DOutcome Int × Cursor :=
  match c.readBytes 8 with
  | some (buf, c') => (.ok (fromU64 (leNat buf)), c')
  | none => (.err .ioError, c)

/-- `decode_float` from `decoder.rs`.  The `f32` result is modelled by its
little-endian bit pattern (the floating-point interpretation plays no role in
any framing property). -/
def decode_float (c : Cursor) : DOutcome Nat × Cursor :=
  match c.readBytes 4 with
  | some (buf, c') => (.ok (leNat buf), c')
  | none => (.err .ioError, c)

/-- `decode_double` from `decoder.rs`, modelled like `decode_float`. -/
def decode_double (c : Cursor) : DOutcome Nat × Cursor :=
  match c.readBytes 8 with
  | some (buf, c') => (.ok (leNat buf), c')
  | none => (.err .ioError, c)

/-- `decode_uint32_field` from `decoder.rs`: read one tag; "no more fields"
or a field-number mismatch gives `Ok(None)`; a wire-type mismatch is an
error; otherwise decode the value. -/
def decode_uint32_field (fieldNumber : Nat) (c : Cursor) :
    DOutcome (Option Nat) × Cursor :=
  bindC (Tag.decode c) fun tag? c' =>
    match tag? with
    | none => (.ok none, c')
    | some tag =>
      if tag.fieldNumber ≠ fieldNumber then (.ok none, c')
      else if tag.wireType ≠ WireType.varint then
        (.err (.unexpectedWireType WireType.varint tag.wireType), c')
      else bindC (decode_uint32 c') fun v c'' => (.ok (some v), c'')

/-- `decode_int32_field` from `decoder.rs`. -/
def decode_int32_field (fieldNumber : Nat) (c : Cursor) :
    DOutcome (Option Int) × Cursor :=
  bindC (Tag.decode c) fun tag? c' =>
    match tag? with
    | none => (.ok none, c')
    | some tag =>
      if tag.fieldNumber ≠ fieldNumber then (.ok none, c')
      else if tag.wireType ≠ WireType.varint then
        (.err (.unexpectedWireType WireType.varint tag.wireType), c')
      else bindC (decode_int32 c') fun v c'' => (.ok (some v), c'')

/-- `decode_int64_field` from `decoder.rs`. -/
def decode_int64_field (fieldNumber : Nat) (c : Cursor) :
    DOutcome (Option Int) × Cursor :=
  bindC (Tag.decode c) fun tag? c' =>
    match tag? with
    | none => (.ok none, c')
    | some tag =>
      if tag.fieldNumber ≠ fieldNumber then (.ok none, c')
      else if tag.wireType ≠ WireType.varint then
        (.err (.unexpectedWireType WireType.varint tag.wireType), c')
      else bindC (decode_int64 c') fun v c'' => (.ok (some v), c'')

/-- `decode_uint64_field` from `decoder.rs`. -/
def decode_uint64_field (fieldNumber : Nat) (c : Cursor) :
    DOutcome (Option Nat) × Cursor :=
  bindC (Tag.decode c) fun tag? c' =>
    match tag? with
    | none => (.ok none, c')
    | some tag =>
      if tag.fieldNumber ≠ fieldNumber then (.ok none, c')
      else if tag.wireType ≠ WireType.varint then
        (.err (.unexpectedWireType WireType.varint tag.wireType), c')
      else bindC (decode_uint64 c') fun v c'' => (.ok (some v), c'')

/-- `decode_sint32_field` from `decoder.rs`. -/
def decode_sint32_field (fieldNumber : Nat) (c : Cursor) :
    DOutcome (Option Int) × Cursor :=
  bindC (Tag.decode c) fun tag? c' =>
    match tag? with
    | none => (.ok none, c')
    | some tag =>
      if tag.fieldNumber ≠ fieldNumber then (.ok none, c')
      else if tag.wireType ≠ WireType.varint then
        (.err (.unexpectedWireType WireType.varint tag.wireType), c')
      else bindC (decode_sint32 c') fun v c'' => (.ok (some v), c'')

/-- `decode_sint64_field` from `decoder.rs`. -/
def decode_sint64_field (fieldNumber : Nat) (c : Cursor) :
    DOutcome (Option Int) × Cursor :=
  bindC (Tag.decode c) fun tag? c' =>
    match tag? with
    | none => (.ok none, c')
    | some tag =>
      if tag.fieldNumber ≠ fieldNumber then (.ok none, c')
      else if tag.wireType ≠ WireType.varint then
        (.err (.unexpectedWireType WireType.varint tag.wireType), c')
      else bindC (decode_sint64 c') fun v c'' => (.ok (some v), c'')

/-- `decode_bool_field` from `decoder.rs`. -/
def decode_bool_field (fieldNumber : Nat) (c : Cursor) :
    DOutcome (Option Bool) × Cursor :=
  bindC (Tag.decode c) fun tag? c' =>
    match tag? with
    | none => (.ok none, c')
    | some tag =>
      if tag.fieldNumber ≠ fieldNumber then (.ok none, c')
      else if tag.wireType ≠ WireType.varint then
        (.err (.unexpectedWireType WireType.varint tag.wireType), c')
      else bindC (decode_bool c') fun v c'' => (.ok (some v), c'')

/-- `decode_string_field` from `decoder.rs`. -/
def decode_string_field (fieldNumber : Nat) (c : Cursor) :
    DOutcome (Option (List Nat)) × Cursor :=
  bindC (Tag.decode c) fun tag? c' =>
    match tag? with
    | none => (.ok none, c')
    | some tag =>
      if tag.fieldNumber ≠ fieldNumber then (.ok none, c')
      else if tag.wireType ≠ WireType.lengthDelimited then
        (.err (.unexpectedWireType WireType.lengthDelimited tag.wireType), c')
      else bindC (decode_string c') fun v c'' => (.ok (some v), c'')

/-- `decode_bytes_field` from `decoder.rs`. -/
def decode_bytes_field (fieldNumber : Nat) (c : Cursor) :
    DOutcome (Option (List Nat)) × Cursor :=
  bindC (Tag.decode c) fun tag? c' =>
    match tag? with
    | none => (.ok none, c')
    | some tag =>
      if tag.fieldNumber ≠ fieldNumber then (.ok none, c')
      else if tag.wireType ≠ WireType.lengthDelimited then
        (.err (.unexpectedWireType WireType.lengthDelimited tag.wireType), c')
      else bindC (decode_bytes c') fun v c'' => (.ok (some v), c'')

/-- `decode_float_field` from `decoder.rs`. -/
def decode_float_field (fieldNumber : Nat) (c : Cursor) :
    DOutcome (Option Nat) × Cursor :=
  bindC (Tag.decode c) fun tag? c' =>
    match tag? with
    | none => (.ok none, c')
    | some tag =>
      if tag.fieldNumber ≠ fieldNumber then (.ok none, c')
      else if tag.wireType ≠ WireType.fixed32 then
        (.err (.unexpectedWireType WireType.fixed32 tag.wireType), c')
      else bindC (decode_float c') fun v c'' => (.ok (some v), c'')

/-- `decode_double_field` from `decoder.rs`. -/
def decode_double_field (fieldNumber : Nat) (c : Cursor) :
    DOutcome (Option Nat) × Cursor :=
  bindC (Tag.decode c) fun tag? c' =>
    match tag? with
    | none => (.ok none, c')
    | some tag =>
      if tag.fieldNumber ≠ fieldNumber then (.ok none, c')
      else if tag.wireType ≠ WireType.fixed64 then
        (.err (.unexpectedWireType WireType.fixed64 tag.wireType), c')
      else bindC (decode_double c') fun v c'' => (.ok (some v), c'')

/-- `decode_fixed32_field` from `decoder.rs`. -/
def decode_fixed32_field (fieldNumber : Nat) (c : Cursor) :
    DOutcome (Option Nat) × Cursor :=
  bindC (Tag.decode c) fun tag? c' =>
    match tag? with
    | none => (.ok none, c')
    | some tag =>
      if tag.fieldNumber ≠ fieldNumber then (.ok none, c')
      else if tag.wireType ≠ WireType.fixed32 then
        (.err (.unexpectedWireType WireType.fixed32 tag.wireType), c')
      else bindC (decode_fixed32 c') fun v c'' => (.ok (some v), c'')

/-- `decode_fixed64_field` from `decoder.rs`. -/
def decode_fixed64_field (fieldNumber : Nat) (c : Cursor) :
    DOutcome (Option Nat) × Cursor :=
  bindC (Tag.decode c) fun tag? c' =>
    match tag? with
    | none => (.ok none, c')
    | some tag =>
      if tag.fieldNumber ≠ fieldNumber then (.ok none, c')
      else if tag.wireType ≠ WireType.fixed64 then
        (.err (.unexpectedWireType WireType.fixed64 tag.wireType), c')
      else bindC (decode_fixed64 c') fun v c'' => (.ok (some v), c'')

/-- `decode_sfixed32_field` from `decoder.rs`. -/
def decode_sfixed32_field (fieldNumber : Nat) (c : Cursor) :
    DOutcome (Option Int) × Cursor :=
  bindC (Tag.decode c) fun tag? c' =>
    match tag? with
    | none => (.ok none, c')
    | some tag =>
      if tag.fieldNumber ≠ fieldNumber then (.ok none, c')
      else if tag.wireType ≠ WireType.fixed32 then
        (.err (.unexpectedWireType WireType.fixed32 tag.wireType), c')
      else bindC (decode_sfixed32 c') fun v c'' => (.ok (some v), c'')

/-- `decode_sfixed64_field` from `decoder.rs`. -/
def decode_sfixed64_field (fieldNumber : Nat) (c : Cursor) :
    DOutcome (Option Int) × Cursor :=
  bindC (Tag.decode c) fun tag? c' =>
    match tag? with
    | none => (.ok none, c')
    | some tag =>
      if tag.fieldNumber ≠ fieldNumber then (.ok none, c')
      else if tag.wireType ≠ WireType.fixed64 then
        (.err (.unexpectedWireType WireType.fixed64 tag.wireType), c')
      else bindC (decode_sfixed64 c') fun v c'' => (.ok (some v), c'')

/-- `HashMap::insert`: replace any existing binding for the key, then add the
new one (iteration order is irrelevant to every property below). -/
def mapInsert {κ ν : Type} [BEq κ] (k : κ) (v : ν) (m : List (κ × ν)) :
    List (κ × ν) :=
  (m.filter fun p => !(p.1 == k)) ++ [(k, v)]

/-- The loop of `decode_map_field` from `decoder.rs` for a `Read + Seek`
source.  Each iteration records `start_pos` (`seek(SeekFrom::Current(0))`,
which always succeeds on a `Cursor`), reads a tag, and on a field-number
mismatch seeks back to `start_pos` — but only when `start_pos > 0` — before
returning the entries collected so far.  The `fuel` argument only bounds the
recursion; every property proved below is independent of it. -/
def decodeMapFieldLoop {κ ν : Type} [BEq κ]
    (fieldNumber : Nat)
    (kd : Cursor → DOutcome κ × Cursor)
    (vd : Cursor → DOutcome ν × Cursor) :
    Nat → List (κ × ν) → Cursor → DOutcome (List (κ × ν)) × Cursor
  | 0, _, c => (.err (.malformedInput "out of fuel"), c)
  | fuel + 1, m, c =>
    let startPos := c.pos
    match Tag.decode c with
    | (.ok none, c') => (.ok m, c')
    | (.ok (some tag), c') =>
      if tag.fieldNumber ≠ fieldNumber then
        if startPos > 0 then (.ok m, ⟨c'.data, startPos⟩)
        else (.ok m, c')
      else if tag.wireType ≠ WireType.lengthDelimited then
        (.err (.unexpectedWireType WireType.lengthDelimited tag.wireType), c')
      else
        match decodeVarint c' with
        | (.ok len, c2) =>
          match c2.readBytes len with
          | none => (.err .ioError, c2)
          | some (entry, c3) =>
            match Tag.decode ⟨entry, 0⟩ with
            | (.ok none, _) =>
              (.err (.malformedInput "Missing key in map entry"), c3)
            | (.ok (some keyTag), ec) =>
              if keyTag.fieldNumber ≠ 1 then
                (.err (.malformedInput
                  "Expected field number 1 for key in map entry"), c3)
              else
                match kd ec with
                | (.ok key, ec2) =>
                  match Tag.decode ec2 with
                  | (.ok none, _) =>
                    (.err (.malformedInput "Missing value in map entry"), c3)
                  | (.ok (some valueTag), ec3) =>
                    if valueTag.fieldNumber ≠ 2 then
                      (.err (.malformedInput
                        "Expected field number 2 for value in map entry"), c3)
                    else
                      match vd ec3 with
                      | (.ok value, _) =>
                        decodeMapFieldLoop fieldNumber kd vd fuel
                          (mapInsert key value m) c3
                      | (.err e, _) => (.err e, c3)
                      | (.panicked, _) => (.panicked, c3)
                  | (.err e, _) => (.err e, c3)
                  | (.panicked, _) => (.panicked, c3)
                | (.err e, _) => (.err e, c3)
                | (.panicked, _) => (.panicked, c3)
            | (.err e, _) => (.err e, c3)
            | (.panicked, _) => (.panicked, c3)
        | (.err e, c2) => (.err e, c2)
        | (.panicked, c2) => (.panicked, c2)
    | (.err e, c') => (.err e, c')
    | (.panicked, c') => (.panicked, c')

/-- `decode_map_field` from `decoder.rs`: the loop above started with an empty
map. -/
def decode_map_field {κ ν : Type} [BEq κ]
    (fieldNumber : Nat)
    (kd : Cursor → DOutcome κ × Cursor)
    (vd : Cursor → DOutcome ν × Cursor)
    (fuel : Nat) (c : Cursor) : DOutcome (List (κ × ν)) × Cursor :=
  decodeMapFieldLoop fieldNumber kd vd fuel [] c

/-- `ProtobufBuilder` from `builder.rs`: the accumulating byte buffer and the
set of field numbers already assigned (the `HashSet` is modelled as a list;
only membership is ever used). -/
structure ProtobufBuilder where
  buffer : List Nat
  fieldNumbers : List Nat
deriving DecidableEq, Repr

/-- `ProtobufBuilder::new` / `Default`. -/
def ProtobufBuilder.new : ProtobufBuilder := ⟨[], []⟩

/-- `ProtobufBuilder::check_field`: record the field number, or panic
(modelled by `none`) when it was already assigned. -/
def ProtobufBuilder.checkField (b : ProtobufBuilder) (fieldNumber : Nat) :
    Option ProtobufBuilder :=
  if b.fieldNumbers.contains fieldNumber then none
  else some ⟨b.buffer, fieldNumber :: b.fieldNumbers⟩

/-- `ProtobufBuilder::add_uint32`: `check_field`, then append the encoding
(writing to a `Vec<u8>` cannot fail, so the `.unwrap()` never panics). -/
def ProtobufBuilder.add_uint32 (b : ProtobufBuilder)
    (fieldNumber value : Nat) : Option ProtobufBuilder :=
  (b.checkField fieldNumber).map fun b' =>
    ⟨b'.buffer ++ encode_uint32 fieldNumber value, b'.fieldNumbers⟩

/-- `ProtobufBuilder::add_bool`. -/
def ProtobufBuilder.add_bool (b : ProtobufBuilder)
    (fieldNumber : Nat) (value : Bool) : Option ProtobufBuilder :=
  (b.checkField fieldNumber).map fun b' =>
    ⟨b'.buffer ++ encode_bool fieldNumber value, b'.fieldNumbers⟩

/-- `ProtobufBuilder::add_string`. -/
def ProtobufBuilder.add_string (b : ProtobufBuilder)
    (fieldNumber : Nat) (value : List Nat) : Option ProtobufBuilder :=
  (b.checkField fieldNumber).map fun b' =>
    ⟨b'.buffer ++ encode_string fieldNumber value, b'.fieldNumbers⟩

/-- `ProtobufBuilder::build`: `mem::take` both fields, returning the buffer
next to the builder the caller is left with (both fields cleared). -/
def ProtobufBuilder.build (b : ProtobufBuilder) :
    List Nat × ProtobufBuilder :=
  (b.buffer, ⟨[], []⟩)

/-! ### Helper lemmas -/

theorem drop_eq_cons_parts {α : Type} {d : List α} {p : Nat} {b : α} {t : List α}
    (h : d.drop p = b :: t) : d.get? p = some b ∧ d.drop (p + 1) = t := by
  constructor
  · rw [List.get?_eq_getElem?, ← List.head?_drop, h]
    rfl
  · rw [← List.tail_drop, h]
    rfl

theorem land_127_eq_mod (b : Nat) : b &&& 127 = b % 128 := by
  have h := Nat.and_pow_two_sub_one_eq_mod b 7
  norm_num at h
  exact h

theorem land_128_eq_zero {b : Nat} (hb : b < 128) : b &&& 128 = 0 := by
  have h7 : (128 : Nat) = 2 ^ 7 := by norm_num
  apply Nat.eq_of_testBit_eq
  intro i
  rw [Nat.testBit_and, Nat.zero_testBit, h7, Nat.testBit_two_pow]
  rcases eq_or_ne 7 i with hi | hi
  · subst hi
    rw [Nat.testBit_lt_two_pow (by norm_num; omega)]
    simp
  · simp [hi]

theorem lor_128_of_lt {b : Nat} (hb : b < 128) : b ||| 128 = b + 128 := by
  have h2 := Nat.mul_add_lt_is_or (i := 7) (b := b) (by norm_num; omega) 1
  norm_num at h2
  rw [Nat.lor_comm]
  omega

theorem land_128_of_add {b : Nat} (hb : b < 128) : (b + 128) &&& 128 = 128 := by
  rw [← lor_128_of_lt hb, Nat.and_distrib_right, Nat.and_self,
    land_128_eq_zero hb]
  simp

theorem lor_mod_256_128 (v : Nat) : v % 256 ||| 128 = v % 128 + 128 := by
  have hq : v % 256 / 128 = 0 ∨ v % 256 / 128 = 1 := by omega
  rcases hq with hq | hq
  · have hv : v % 256 = v % 128 := by omega
    rw [hv, lor_128_of_lt (by omega)]
  · have hv : v % 256 = v % 128 + 128 := by omega
    rw [hv, ← lor_128_of_lt (show v % 128 < 128 by omega), Nat.lor_assoc,
      Nat.or_self, lor_128_of_lt (show v % 128 < 128 by omega)]

theorem lor_disjoint_eq_add {r : Nat} (s x : Nat) (hr : r < 2 ^ s) :
    r ||| x * 2 ^ s = r + x * 2 ^ s := by
  have h := Nat.mul_add_lt_is_or (i := s) (b := r) hr x
  rw [Nat.lor_comm, Nat.mul_comm x]
  omega

theorem decodeVarintLoop_spec :
    ∀ (x result shift : Nat) (d rest : List Nat) (p : Nat),
      d.drop p = encodeVarint x ++ rest →
      x * 2 ^ shift < 2 ^ 64 →
      result < 2 ^ shift →
      decodeVarintLoop result shift ⟨d, p⟩ =
        (.ok (result + x * 2 ^ shift), ⟨d, p + (encodeVarint x).length⟩) := by
  intro x
  induction x using Nat.strong_induction_on with
  | _ x ih =>
    intro result shift d rest p hdrop hx hres
    by_cases hge : x ≥ 128
    · rw [encodeVarint, if_pos hge, List.cons_append, lor_mod_256_128] at hdrop
      obtain ⟨hget, hdrop'⟩ := drop_eq_cons_parts hdrop
      have hxm : x % 128 < 128 := by omega
      have hpow : (2 : Nat) ^ (shift + 7) = 128 * 2 ^ shift := by
        rw [pow_add]; ring_nf
      have hs7 : ¬ shift + 7 > 63 := by
        have h1 : 2 ^ (shift + 7) ≤ x * 2 ^ shift := by
          rw [hpow]
          exact Nat.mul_le_mul_right _ (by omega)
        have h2 : (2 : Nat) ^ (shift + 7) < 2 ^ 64 := lt_of_le_of_lt h1 hx
        have := (Nat.pow_lt_pow_iff_right (by norm_num : 1 < 2)).mp h2
        omega
      rw [decodeVarintLoop]
      simp only [hget]
      rw [land_128_of_add hxm]
      rw [if_neg (by omega), if_neg hs7, land_127_eq_mod,
        show (x % 128 + 128) % 128 = x % 128 by omega, Nat.shiftLeft_eq,
        Nat.mod_eq_of_lt
          (lt_of_le_of_lt (Nat.mul_le_mul_right _ (Nat.mod_le x 128)) hx),
        lor_disjoint_eq_add shift (x % 128) hres]
      have hx' : x / 128 * 2 ^ (shift + 7) < 2 ^ 64 := by
        apply lt_of_le_of_lt _ hx
        rw [hpow]
        calc x / 128 * (128 * 2 ^ shift) = x / 128 * 128 * 2 ^ shift := by ring
          _ ≤ x * 2 ^ shift :=
            Nat.mul_le_mul_right _ (Nat.div_mul_le_self x 128)
      have hres' : result + x % 128 * 2 ^ shift < 2 ^ (shift + 7) := by
        rw [hpow]
        have h1 : x % 128 * 2 ^ shift ≤ 127 * 2 ^ shift :=
          Nat.mul_le_mul_right _ (by omega)
        calc result + x % 128 * 2 ^ shift < 2 ^ shift + 127 * 2 ^ shift := by
              omega
          _ = 128 * 2 ^ shift := by ring
      rw [ih (x / 128) (Nat.div_lt_self (by omega) (by norm_num))
        (result + x % 128 * 2 ^ shift) (shift + 7) d rest (p + 1)
        hdrop' hx' hres']
      have hlen : (encodeVarint x).length = 1 + (encodeVarint (x / 128)).length := by
        rw [encodeVarint, if_pos hge]
        simp [Nat.add_comm]
      have key : x % 128 * 2 ^ shift + x / 128 * 2 ^ (shift + 7) = x * 2 ^ shift := by
        have hds : x % 128 + 128 * (x / 128) = x := Nat.mod_add_div x 128
        rw [hpow]
        calc x % 128 * 2 ^ shift + x / 128 * (128 * 2 ^ shift)
            = (x % 128 + 128 * (x / 128)) * 2 ^ shift := by ring
          _ = x * 2 ^ shift := by rw [hds]
      simp only [Prod.mk.injEq, DOutcome.ok.injEq, Cursor.mk.injEq]
      refine ⟨by omega, trivial, by omega⟩
    · have hx128 : x < 128 := by omega
      rw [encodeVarint, if_neg hge] at hdrop
      simp only [List.cons_append, List.nil_append] at hdrop
      obtain ⟨hget, _⟩ := drop_eq_cons_parts hdrop
      rw [decodeVarintLoop]
      simp only [hget]
      rw [land_128_eq_zero hx128, if_pos rfl, land_127_eq_mod,
        Nat.mod_eq_of_lt hx128, Nat.shiftLeft_eq, Nat.mod_eq_of_lt hx,
        lor_disjoint_eq_add shift x hres]
      have hlen : (encodeVarint x).length = 1 := by
        rw [encodeVarint, if_neg hge]
        rfl
      rw [hlen]

theorem decodeVarint_spec {x : Nat} (hx : x < 2 ^ 64) {d rest : List Nat} {p : Nat}
    (h : d.drop p = encodeVarint x ++ rest) :
    decodeVarint ⟨d, p⟩ = (.ok x, ⟨d, p + (encodeVarint x).length⟩) := by
  have := decodeVarintLoop_spec x 0 0 d rest p h (by simpa using hx) (by norm_num)
  simpa using this

theorem contBytes_invalidVarint :
    ∀ (k result shift : Nat) (d : List Nat) (p : Nat),
      shift + 7 * k = 70 → shift ≤ 63 →
      (∀ i, i < k → ∃ b, d.get? (p + i) = some b ∧ b &&& 128 ≠ 0) →
      (decodeVarintLoop result shift ⟨d, p⟩).1 = .err .invalidVarint := by
  intro k
  induction k with
  | zero =>
    intro result shift d p h70 h63 _
    omega
  | succ k ih =>
    intro result shift d p h70 h63 hbytes
    obtain ⟨b, hget, hb⟩ := hbytes 0 (by omega)
    rw [Nat.add_zero] at hget
    rw [decodeVarintLoop]
    simp only [hget]
    rw [if_neg hb]
    by_cases h7 : shift + 7 > 63
    · rw [if_pos h7]
    · rw [if_neg h7]
      apply ih _ _ d (p + 1) (by omega) (by omega)
      intro i hi
      obtain ⟨b', hget', hb'⟩ := hbytes (i + 1) (by omega)
      exact ⟨b', by rw [show p + 1 + i = p + (i + 1) by omega]; exact hget', hb'⟩

/-! ### C1 -/

/-- C1 (counterexample): `encode_varint` emits 9 bytes for `2^63 - 1`, not the
10 bytes the claim asserts. -/
theorem C1_counterexample :
    (encodeVarint (2 ^ 63 - 1)).length = 9 ∧
    (encodeVarint (2 ^ 63 - 1)).length ≠ 10 := by
  constructor <;> simp +decide [encodeVarint]

/-- C1 (amended): `encode_varint` emits exactly 1 byte for `0`, exactly 9
bytes for `2^63 - 1`, and exactly 10 bytes for `2^64 - 1`; `decode_varint`
on a source whose first 11 bytes all carry the continuation bit fails with
`InvalidVarint`. -/
theorem C1_varint_boundary :
    (encodeVarint 0).length = 1 ∧
    (encodeVarint (2 ^ 63 - 1)).length = 9 ∧
    (encodeVarint (2 ^ 64 - 1)).length = 10 ∧
    (∀ d : List Nat,
      (∀ i, i < 11 → ∃ b, d.get? i = some b ∧ b &&& 128 ≠ 0) →
      (decodeVarint ⟨d, 0⟩).1 = .err .invalidVarint) := by
  refine ⟨by simp [encodeVarint], by simp +decide [encodeVarint],
    by simp +decide [encodeVarint], ?_⟩
  intro d hd
  exact contBytes_invalidVarint 10 0 0 d 0 (by omega) (by omega)
    (fun i hi => by simpa using hd i (by omega))

/-- C1 witness: the amended theorem applied to eleven `0x80` bytes. -/
theorem C1_varint_boundary_witness :
    (decodeVarint ⟨[128, 128, 128, 128, 128, 128, 128, 128, 128, 128, 128], 0⟩).1 =
      .err .invalidVarint := by
  apply C1_varint_boundary.2.2.2
  intro i hi
  interval_cases i <;> exact ⟨128, rfl, by decide⟩

/-! ### C6 -/

theorem land_7_eq_mod (b : Nat) : b &&& 7 = b % 8 := by
  have h := Nat.and_pow_two_sub_one_eq_mod b 3
  norm_num at h
  exact h

theorem WireType.code_lt (wt : WireType) : wt.code < 8 := by
  cases wt <;> simp [WireType.code]

theorem makeTag_eq {n : Nat} (wt : WireType) (hn : n < 2 ^ 29) :
    makeTag n wt = 8 * n + wt.code := by
  have hcode := wt.code_lt
  have hlt : n <<< 3 < 2 ^ 32 := by
    rw [Nat.shiftLeft_eq]
    norm_num at hn ⊢
    omega
  have h := Nat.mul_add_lt_is_or (i := 3) (b := wt.code) (by norm_num; omega) n
  unfold makeTag
  rw [Nat.mod_eq_of_lt hlt, Nat.shiftLeft_eq]
  norm_num at h ⊢
  rw [Nat.mul_comm n 8]
  omega

theorem decodeVarint_encodeTag {n : Nat} (wt : WireType) (hn : n < 2 ^ 29) :
    decodeVarint ⟨encodeTag n wt, 0⟩ =
      (.ok (8 * n + wt.code), ⟨encodeTag n wt, (encodeTag n wt).length⟩) := by
  have hcode := wt.code_lt
  have hmt := makeTag_eq wt hn
  have hlt : makeTag n wt < 2 ^ 64 := by
    rw [hmt]
    norm_num at hn ⊢
    omega
  have hdrop : (encodeTag n wt).drop 0 = encodeVarint (makeTag n wt) ++ [] := by
    simp [encodeTag]
  have h := decodeVarint_spec hlt hdrop
  rw [← hmt]
  simpa [encodeTag] using h

theorem Tag_decode_encodeTag_spec {n : Nat} (wt : WireType)
    (h1 : 1 ≤ n) (h2 : n < 2 ^ 29) :
    Tag.decode ⟨encodeTag n wt, 0⟩ =
      (if wt = WireType.startGroup then
        (.err (.invalidWireType 3), ⟨encodeTag n wt, (encodeTag n wt).length⟩)
      else if wt = WireType.endGroup then
        (.err (.invalidWireType 4), ⟨encodeTag n wt, (encodeTag n wt).length⟩)
      else
        (.ok (some ⟨n, wt⟩), ⟨encodeTag n wt, (encodeTag n wt).length⟩)) := by
  have h32 : n < 2 ^ 32 := by norm_num at h2 ⊢; omega
  cases wt
  case varint =>
    have hdv := decodeVarint_encodeTag (n := n) WireType.varint h2
    simp only [WireType.code] at hdv
    rw [Tag.decode]
    simp only [hdv]
    rw [if_neg (by omega : ¬ 8 * n + 0 = 0),
      show (8 * n + 0) >>> 3 = n by rw [Nat.shiftRight_eq_div_pow]; omega,
      show (8 * n + 0) &&& 7 = 0 by rw [land_7_eq_mod]; omega,
      if_neg (by omega : ¬ n = 0)]
    simp only []
    rw [if_pos h32]
    rfl
  case fixed64 =>
    have hdv := decodeVarint_encodeTag (n := n) WireType.fixed64 h2
    simp only [WireType.code] at hdv
    rw [Tag.decode]
    simp only [hdv]
    rw [if_neg (by omega : ¬ 8 * n + 1 = 0),
      show (8 * n + 1) >>> 3 = n by rw [Nat.shiftRight_eq_div_pow]; omega,
      show (8 * n + 1) &&& 7 = 1 by rw [land_7_eq_mod]; omega,
      if_neg (by omega : ¬ n = 0)]
    simp only []
    rw [if_pos h32]
    rfl
  case lengthDelimited =>
    have hdv := decodeVarint_encodeTag (n := n) WireType.lengthDelimited h2
    simp only [WireType.code] at hdv
    rw [Tag.decode]
    simp only [hdv]
    rw [if_neg (by omega : ¬ 8 * n + 2 = 0),
      show (8 * n + 2) >>> 3 = n by rw [Nat.shiftRight_eq_div_pow]; omega,
      show (8 * n + 2) &&& 7 = 2 by rw [land_7_eq_mod]; omega,
      if_neg (by omega : ¬ n = 0)]
    simp only []
    rw [if_pos h32]
    rfl
  case startGroup =>
    have hdv := decodeVarint_encodeTag (n := n) WireType.startGroup h2
    simp only [WireType.code] at hdv
    rw [Tag.decode]
    simp only [hdv]
    rw [if_neg (by omega : ¬ 8 * n + 3 = 0),
      show (8 * n + 3) >>> 3 = n by rw [Nat.shiftRight_eq_div_pow]; omega,
      show (8 * n + 3) &&& 7 = 3 by rw [land_7_eq_mod]; omega,
      if_neg (by omega : ¬ n = 0)]
    rfl
  case endGroup =>
    have hdv := decodeVarint_encodeTag (n := n) WireType.endGroup h2
    simp only [WireType.code] at hdv
    rw [Tag.decode]
    simp only [hdv]
    rw [if_neg (by omega : ¬ 8 * n + 4 = 0),
      show (8 * n + 4) >>> 3 = n by rw [Nat.shiftRight_eq_div_pow]; omega,
      show (8 * n + 4) &&& 7 = 4 by rw [land_7_eq_mod]; omega,
      if_neg (by omega : ¬ n = 0)]
    rfl
  case fixed32 =>
    have hdv := decodeVarint_encodeTag (n := n) WireType.fixed32 h2
    simp only [WireType.code] at hdv
    rw [Tag.decode]
    simp only [hdv]
    rw [if_neg (by omega : ¬ 8 * n + 5 = 0),
      show (8 * n + 5) >>> 3 = n by rw [Nat.shiftRight_eq_div_pow]; omega,
      show (8 * n + 5) &&& 7 = 5 by rw [land_7_eq_mod]; omega,
      if_neg (by omega : ¬ n = 0)]
    simp only []
    rw [if_pos h32]
    rfl

/-- C6: for every field number in `1 ..= 2^29 - 1` and every valid wire type,
decoding the bytes of `encode_tag(n, wt)` yields exactly `(n, wt)` (the whole
encoding consumed); a tag whose wire-type nibble is 3 or 4 fails with
`InvalidWireType(3)` / `InvalidWireType(4)`; and a raw tag varint of 0
decodes to "no more fields" (`Ok(None)`), not an error. -/
theorem C6_tag_roundtrip :
    (∀ (n : Nat) (wt : WireType), 1 ≤ n → n ≤ 2 ^ 29 - 1 →
      wt ≠ WireType.startGroup → wt ≠ WireType.endGroup →
      Tag.decode ⟨encodeTag n wt, 0⟩ =
        (.ok (some ⟨n, wt⟩), ⟨encodeTag n wt, (encodeTag n wt).length⟩)) ∧
    (∀ n : Nat, 1 ≤ n → n ≤ 2 ^ 29 - 1 →
      (Tag.decode ⟨encodeTag n WireType.startGroup, 0⟩).1 =
        .err (.invalidWireType 3) ∧
      (Tag.decode ⟨encodeTag n WireType.endGroup, 0⟩).1 =
        .err (.invalidWireType 4)) ∧
    Tag.decode ⟨encodeVarint 0, 0⟩ = (.ok none, ⟨encodeVarint 0, 1⟩) := by
  refine ⟨?_, ?_, ?_⟩
  · intro n wt h1 h2 hs he
    have hn : n < 2 ^ 29 := by norm_num at h2 ⊢; omega
    have h := Tag_decode_encodeTag_spec wt h1 hn
    rw [if_neg hs, if_neg he] at h
    exact h
  · intro n h1 h2
    have hn : n < 2 ^ 29 := by norm_num at h2 ⊢; omega
    constructor
    · have h := Tag_decode_encodeTag_spec WireType.startGroup h1 hn
      rw [if_pos rfl] at h
      rw [h]
    · have h := Tag_decode_encodeTag_spec WireType.endGroup h1 hn
      rw [if_neg (by decide), if_pos rfl] at h
      rw [h]
  · simp +decide [Tag.decode, decodeVarint, decodeVarintLoop, encodeVarint]

/-- C6 witness: the round trip at `n = 1`, `wt = Varint`, plus the rejected
wire-type nibbles at `n = 1`. -/
theorem C6_tag_roundtrip_witness :
    Tag.decode ⟨encodeTag 1 WireType.varint, 0⟩ =
      (.ok (some ⟨1, WireType.varint⟩), ⟨encodeTag 1 WireType.varint, 1⟩) ∧
    (Tag.decode ⟨encodeTag 1 WireType.startGroup, 0⟩).1 =
      .err (.invalidWireType 3) ∧
    (Tag.decode ⟨encodeTag 1 WireType.endGroup, 0⟩).1 =
      .err (.invalidWireType 4) := by
  refine ⟨?_, ?_, ?_⟩
  · have h := C6_tag_roundtrip.1 1 WireType.varint (by norm_num) (by norm_num)
      (by decide) (by decide)
    have hlen : (encodeTag 1 WireType.varint).length = 1 := by
      simp +decide [encodeTag, encodeVarint, makeTag, WireType.code]
    rw [hlen] at h
    exact h
  · exact (C6_tag_roundtrip.2.1 1 (by norm_num) (by norm_num)).1
  · exact (C6_tag_roundtrip.2.1 1 (by norm_num) (by norm_num)).2

/-! ### C2 -/

/-- C2 (the code at the failing input): the 6-byte source
`[0x80, 0x80, 0x80, 0x80, 0x80, 0x01]` encodes the tag varint `2^35`, whose
field number `2^32` does not fit in a `u32`, so
`field_number.try_into().unwrap()` inside `Tag::decode` panics instead of
returning any `DecodeError`. -/
theorem C2_tag_decode_panics :
    Tag.decode ⟨[128, 128, 128, 128, 128, 1], 0⟩ =
      (.panicked, ⟨[128, 128, 128, 128, 128, 1], 6⟩) := by
  simp +decide [Tag.decode, decodeVarint, decodeVarintLoop]

/-! ### C10 -/

/-- C10: whenever the varint read inside `Tag::decode` fails with
`UnexpectedEof` — both on an empty source and on one truncated in the middle
of a multi-byte tag varint — `Tag::decode` returns `Ok(None)`, exactly the
"no more fields" answer of a cleanly terminated message. -/
theorem C10_truncated_tag_is_clean_end :
    (∀ c c' : Cursor, decodeVarint c = (.err .unexpectedEof, c') →
      Tag.decode c = (.ok none, c')) ∧
    Tag.decode ⟨[], 0⟩ = (.ok none, ⟨[], 0⟩) ∧
    Tag.decode ⟨[128], 0⟩ = (.ok none, ⟨[128], 1⟩) := by
  refine ⟨?_, ?_, ?_⟩
  · intro c c' h
    rw [Tag.decode]
    simp only [h]
  · simp [Tag.decode, decodeVarint, decodeVarintLoop]
  · simp +decide [Tag.decode, decodeVarint, decodeVarintLoop]

/-- C10 witness: a tag truncated after two continuation bytes decodes to
`Ok(None)`. -/
theorem C10_truncated_tag_is_clean_end_witness :
    Tag.decode ⟨[128, 128], 0⟩ = (.ok none, ⟨[128, 128], 2⟩) := by
  apply C10_truncated_tag_is_clean_end.1
  simp +decide [decodeVarint, decodeVarintLoop]

/-! ### C3 -/

/-- C3 (counterexample): `decode_uint32_field` for field 1 on the source
`[0x10, 0x05]` (field 2, varint 5) reports the field absent but leaves the
reader at position 1 — the mismatching tag byte has been consumed, so the
source position is not the same as before the call. -/
theorem C3_counterexample :
    decode_uint32_field 1 ⟨[16, 5], 0⟩ = (.ok none, ⟨[16, 5], 1⟩) ∧
    (⟨[16, 5], 1⟩ : Cursor) ≠ ⟨[16, 5], 0⟩ := by
  constructor
  · simp +decide [decode_uint32_field, bindC, Tag.decode, decodeVarint,
      decodeVarintLoop]
  · decide

/-- C3 (amended): when the next tag decodes to a field number different from
the requested one, every non-seeking scalar field decoder returns "field
absent" (`Ok(None)`) without consuming anything *beyond that tag*: the
reader is left exactly where `Tag::decode` left it (the tag itself has been
consumed). -/
theorem C3_field_mismatch :
    ∀ (n : Nat) (c c' : Cursor) (t : Tag),
      Tag.decode c = (.ok (some t), c') → t.fieldNumber ≠ n →
      decode_uint32_field n c = (.ok none, c') ∧
      decode_int32_field n c = (.ok none, c') ∧
      decode_int64_field n c = (.ok none, c') ∧
      decode_uint64_field n c = (.ok none, c') ∧
      decode_sint32_field n c = (.ok none, c') ∧
      decode_sint64_field n c = (.ok none, c') ∧
      decode_bool_field n c = (.ok none, c') ∧
      decode_string_field n c = (.ok none, c') ∧
      decode_bytes_field n c = (.ok none, c') ∧
      decode_float_field n c = (.ok none, c') ∧
      decode_double_field n c = (.ok none, c') ∧
      decode_fixed32_field n c = (.ok none, c') ∧
      decode_fixed64_field n c = (.ok none, c') ∧
      decode_sfixed32_field n c = (.ok none, c') ∧
      decode_sfixed64_field n c = (.ok none, c') := by
  intro n c c' t ht hne
  refine ⟨?_, ?_, ?_, ?_, ?_, ?_, ?_, ?_, ?_, ?_, ?_, ?_, ?_, ?_, ?_⟩ <;>
    (first
      | (simp only [decode_uint32_field, decode_int32_field, decode_int64_field,
          decode_uint64_field, decode_sint32_field, decode_sint64_field,
          decode_bool_field, decode_string_field, decode_bytes_field,
          decode_float_field, decode_double_field, decode_fixed32_field,
          decode_fixed64_field, decode_sfixed32_field, decode_sfixed64_field,
          bindC, ht]
         rw [if_pos hne]))

/-- C3 witness: the amended theorem at the source `[0x10, 0x05]` with
requested field 1 (actual field 2). -/
theorem C3_field_mismatch_witness :
    decode_uint32_field 1 ⟨[16, 5], 0⟩ = (.ok none, ⟨[16, 5], 1⟩) ∧
    decode_string_field 1 ⟨[16, 5], 0⟩ = (.ok none, ⟨[16, 5], 1⟩) := by
  have h := C3_field_mismatch 1 ⟨[16, 5], 0⟩ ⟨[16, 5], 1⟩ ⟨2, WireType.varint⟩
    (by simp +decide [Tag.decode, decodeVarint, decodeVarintLoop]) (by decide)
  exact ⟨h.1, h.2.2.2.2.2.2.2.1⟩


/-! ### C9 -/

theorem xor_two_pow_sub_one {n x : Nat} (hx : x < 2 ^ n) :
    x ^^^ (2 ^ n - 1) = 2 ^ n - 1 - x := by
  apply Nat.eq_of_testBit_eq
  intro i
  rw [Nat.testBit_xor, Nat.testBit_two_pow_sub_one,
    show 2 ^ n - 1 - x = 2 ^ n - (x + 1) by omega,
    Nat.testBit_two_pow_sub_succ hx]
  by_cases hin : i < n
  · simp [hin]
  · have hxi : x.testBit i = false :=
      Nat.testBit_lt_two_pow
        (lt_of_lt_of_le hx (Nat.pow_le_pow_right (by norm_num) (by omega)))
    simp [hin, hxi]

/-- C9: zigzag is a bijection inverted by `decode_zigzag`: for every `i64`
value `v`, `decode_zigzag` applied to the zigzag mapping
`((v << 1) ^ (v >> 63))` gives back `v`; the zigzag image of `-1` is the
unsigned value `1`, so `encode_zigzag(-1)` emits the single-byte varint
`[0x01]`. -/
theorem C9_zigzag_roundtrip :
    (∀ v : Int, -(2 ^ 63) ≤ v → v < 2 ^ 63 → decodeZigzag (zigzag v) = v) ∧
    zigzag (-1) = 1 ∧
    encodeZigzag (-1) = [1] := by
  have hz1 : zigzag (-1) = 1 := by decide
  refine ⟨?_, hz1, by rw [encodeZigzag, hz1]; simp [encodeVarint]⟩
  intro v h1 h2
  by_cases hv : v < 0
  · have ha1 : 1 ≤ (-v).toNat := by omega
    have ha63 : (-v).toNat ≤ 2 ^ 63 := by omega
    have htu2 : toU64 v = 2 ^ 64 - (-v).toNat := by unfold toU64; omega
    unfold zigzag
    rw [htu2, if_pos hv,
      show (2 * (2 ^ 64 - (-v).toNat)) % 2 ^ 64 = 2 ^ 64 - 2 * (-v).toNat by omega,
      xor_two_pow_sub_one (by omega : 2 ^ 64 - 2 * (-v).toNat < 2 ^ 64),
      show 2 ^ 64 - 1 - (2 ^ 64 - 2 * (-v).toNat) = 2 * (-v).toNat - 1 by omega]
    unfold decodeZigzag
    rw [show (2 * (-v).toNat - 1) >>> 1 = (-v).toNat - 1 by
        rw [Nat.shiftRight_eq_div_pow]; omega,
      show (2 * (-v).toNat - 1) &&& 1 = 1 by rw [Nat.and_one_is_mod]; omega,
      show toU64 (-((1 : Nat) : Int)) = 2 ^ 64 - 1 by unfold toU64; omega,
      xor_two_pow_sub_one (by omega : (-v).toNat - 1 < 2 ^ 64),
      show 2 ^ 64 - 1 - ((-v).toNat - 1) = 2 ^ 64 - (-v).toNat by omega]
    unfold fromU64
    rw [if_neg (by omega : ¬ (2 ^ 64 - (-v).toNat < 2 ^ 63))]
    omega
  · have htu : toU64 v = v.toNat := by unfold toU64; omega
    unfold zigzag
    rw [htu, if_neg hv,
      show (2 * v.toNat) % 2 ^ 64 = 2 * v.toNat by omega, Nat.xor_zero]
    unfold decodeZigzag
    rw [show (2 * v.toNat) >>> 1 = v.toNat by
        rw [Nat.shiftRight_eq_div_pow]; omega,
      show (2 * v.toNat) &&& 1 = 0 by rw [Nat.and_one_is_mod]; omega,
      show toU64 (-((0 : Nat) : Int)) = 0 by unfold toU64; omega, Nat.xor_zero]
    unfold fromU64
    rw [if_pos (by omega : v.toNat < 2 ^ 63)]
    omega

/-- C9 witness: the round trip applied at `v = -3` and `v = 7`. -/
theorem C9_zigzag_roundtrip_witness :
    decodeZigzag (zigzag (-3)) = -3 ∧ decodeZigzag (zigzag 7) = 7 :=
  ⟨C9_zigzag_roundtrip.1 (-3) (by norm_num) (by norm_num),
   C9_zigzag_roundtrip.1 7 (by norm_num) (by norm_num)⟩

/-! ### C4 -/

/-- C4 (counterexample): when the non-matching tag starts at stream
position 0, `decode_map_field` does *not* reposition the source back: the
tag `[0x10]` (field 2) is consumed and the reader is left at position 1. -/
theorem C4_counterexample :
    decode_map_field 1 decode_uint32 decode_uint32 3 ⟨[16, 5], 0⟩ =
      (.ok ([] : List (Nat × Nat)), ⟨[16, 5], 1⟩) ∧
    (⟨[16, 5], 1⟩ : Cursor).pos ≠ (⟨[16, 5], 0⟩ : Cursor).pos := by
  constructor
  · simp +decide [decode_map_field, decodeMapFieldLoop, Tag.decode,
      decodeVarint, decodeVarintLoop]
  · decide

/-- C4 (amended): when `decode_map_field` reads a tag whose field number
differs from the requested one, it returns the map entries collected so far
and repositions the source to just before that tag — but only when the tag
started at a position greater than 0; a non-matching tag starting at
position 0 is left consumed (`start_pos > 0` guards the seek). -/
theorem C4_map_field_rewind :
    ∀ {κ ν : Type} [BEq κ] (kd : Cursor → DOutcome κ × Cursor)
      (vd : Cursor → DOutcome ν × Cursor) (n fuel : Nat)
      (m : List (κ × ν)) (c c' : Cursor) (t : Tag),
      Tag.decode c = (.ok (some t), c') → t.fieldNumber ≠ n →
      decodeMapFieldLoop n kd vd (fuel + 1) m c =
        (.ok m, if 0 < c.pos then ⟨c'.data, c.pos⟩ else c') ∧
      decode_map_field n kd vd (fuel + 1) c =
        (.ok [], if 0 < c.pos then ⟨c'.data, c.pos⟩ else c') := by
  intro κ ν _ kd vd n fuel m c c' t ht hne
  have key : ∀ m0 : List (κ × ν),
      decodeMapFieldLoop n kd vd (fuel + 1) m0 c =
        (.ok m0, if 0 < c.pos then ⟨c'.data, c.pos⟩ else c') := by
    intro m0
    rw [decodeMapFieldLoop]
    simp only [ht]
    rw [if_pos hne]
    by_cases h0 : 0 < c.pos <;> simp [h0]
  exact ⟨key m, by rw [decode_map_field]; exact key []⟩

/-- C4 witness: the amended theorem at a non-matching tag starting at
position 1: the reader is repositioned to 1 and the accumulated entries are
returned. -/
theorem C4_map_field_rewind_witness :
    decodeMapFieldLoop 1 decode_uint32 decode_uint32 3
        ([(9, 9)] : List (Nat × Nat)) ⟨[0, 16, 5], 1⟩ =
      (.ok [(9, 9)], ⟨[0, 16, 5], 1⟩) := by
  have h := (C4_map_field_rewind decode_uint32 decode_uint32 1 2 [(9, 9)]
    ⟨[0, 16, 5], 1⟩ ⟨[0, 16, 5], 2⟩ ⟨2, WireType.varint⟩
    (by simp +decide [Tag.decode, decodeVarint, decodeVarintLoop])
    (by decide)).1
  simpa using h

/-! ### C5 -/

/-- C5 (counterexample): after `build()` the very same builder instance
accepts a new `add_uint32(5, 7)` call and a second `build()` that returns
the new field's encoding — there is no terminal Built state. -/
theorem C5_counterexample :
    ((ProtobufBuilder.new.build).2.add_uint32 5 7).isSome = true ∧
    ((ProtobufBuilder.new.build).2.add_uint32 5 7).map (fun b => b.build.1) =
      some [40, 7] := by
  constructor
  · rfl
  · simp +decide [ProtobufBuilder.new, ProtobufBuilder.build,
      ProtobufBuilder.add_uint32, ProtobufBuilder.checkField, encode_uint32,
      encodeTag, encodeVarint, makeTag, WireType.code]

/-- C5 (amended): `build()` returns the accumulated buffer and clears both
the buffer and the field-number set, but the builder is *not* moved to a
terminal state: every later add-field call is accepted (the cleared
field-number set lets any field number pass `check_field`), and a second
`build()` is accepted and returns the now-empty buffer. -/
theorem C5_build_clears_and_is_reusable :
    ∀ b : ProtobufBuilder,
      b.build = (b.buffer, ⟨[], []⟩) ∧
      (∀ n v, ((b.build).2.add_uint32 n v).isSome = true) ∧
      (b.build).2.build = ([], ⟨[], []⟩) := by
  intro b
  refine ⟨rfl, ?_, rfl⟩
  intro n v
  simp [ProtobufBuilder.build, ProtobufBuilder.add_uint32,
    ProtobufBuilder.checkField]

/-! ### C7 -/

/-- C7: building with `add_string(1, "ok")`, `add_uint32(2, 0)`,
`add_bool(3, true)` then `build()` yields exactly the concatenation of the
field-1 string encoding and the field-3 bool encoding (the zero-valued
field 2 contributes no bytes), and sequentially decoding that buffer with
the field-presence decoders reports field 2 as absent. -/
theorem C7_end_to_end :
    ((((ProtobufBuilder.new.add_string 1 [111, 107]).bind
        (fun b => b.add_uint32 2 0)).bind
        (fun b => b.add_bool 3 true)).map (fun b => b.build.1)) =
      some (encode_string 1 [111, 107] ++ encode_bool 3 true) ∧
    encode_string 1 [111, 107] ++ encode_bool 3 true =
      [10, 2, 111, 107, 24, 1] ∧
    decode_string_field 1 ⟨[10, 2, 111, 107, 24, 1], 0⟩ =
      (.ok (some [111, 107]), ⟨[10, 2, 111, 107, 24, 1], 4⟩) ∧
    (decode_uint32_field 2 ⟨[10, 2, 111, 107, 24, 1], 4⟩).1 = .ok none := by
  refine ⟨?_, ?_, ?_, ?_⟩
  · simp +decide [ProtobufBuilder.new, ProtobufBuilder.build,
      ProtobufBuilder.add_string, ProtobufBuilder.add_uint32,
      ProtobufBuilder.add_bool, ProtobufBuilder.checkField, encode_string,
      encode_uint32, encode_bool, encodeTag, encodeVarint, makeTag,
      WireType.code]
  · simp +decide [encode_string, encode_bool, encodeTag, encodeVarint,
      makeTag, WireType.code]
  · simp +decide [decode_string_field, bindC, Tag.decode, decodeVarint,
      decodeVarintLoop, decode_string, decode_bytes, Cursor.readBytes]
  · simp +decide [decode_uint32_field, bindC, Tag.decode, decodeVarint,
      decodeVarintLoop]

/-! ### C8 -/

/-- C8: adding the same field number (5) twice on one open builder aborts
(the `check_field` panic, modelled as `none`) rather than returning a
recoverable error, for any values; adding fields 5 then 6 succeeds and the
built buffer is their encodings in insertion order. -/
theorem C8_duplicate_field :
    (∀ v w : Nat,
      (ProtobufBuilder.new.add_uint32 5 v).bind (fun b => b.add_uint32 5 w) =
        none) ∧
    (∀ v w : Nat,
      ((ProtobufBuilder.new.add_uint32 5 v).bind
        (fun b => b.add_uint32 6 w)).map (fun b => b.build.1) =
        some (encode_uint32 5 v ++ encode_uint32 6 w)) := by
  constructor
  · intro v w
    simp [ProtobufBuilder.new, ProtobufBuilder.add_uint32,
      ProtobufBuilder.checkField]
  · intro v w
    simp [ProtobufBuilder.new, ProtobufBuilder.add_uint32,
      ProtobufBuilder.checkField, ProtobufBuilder.build]
